import Mathlib

/-!
Verification development for the EE547 HW3 document-store repository
(problem 2: `load_data.py`, `query_papers.py`, `api_server.py`).

Strings are modelled as lists of characters (`Str`); Python string
operations used by the source (strip, lower, truthiness, slicing,
`or`-defaulting) are embedded explicitly.  Each definition mirrors one
function of the Python source, keeping its name where possible.
-/

set_option maxHeartbeats 1000000

abbrev Str := List Char

/-- Python `s.strip()` restricted to the whitespace characters that matter
for this repository: drop leading and trailing whitespace. -/
def pyStrip (s : Str) : Str :=
  ((s.dropWhile Char.isWhitespace).reverse.dropWhile Char.isWhitespace).reverse

/-- Python `a or b` for strings: `b` when `a` is falsy (empty), else `a`. -/
def strOr (a b : Str) : Str := if a.isEmpty then b else a

/-- Python `d.get(key) or dflt` where a missing key gives `None`:
the default when the field is absent or the empty string. -/
def pyGetOr (o : Option Str) (dflt : Str) : Str :=
  match o with
  | none => dflt
  | some s => if s.isEmpty then dflt else s

/-- The `compact` pass of `load_data.py` applied to a single string
attribute: an empty string is removed from the item (becomes absent). -/
def compactStr (s : Str) : Option Str :=
  if s.isEmpty then none else some s

/-- The fixed stopword set of `load_data.py` (`STOPWORDS`). -/
def STOPWORDS : List Str :=
  (["the", "a", "an", "and", "or", "but", "in", "on", "at", "to", "for",
    "of", "with", "by", "from", "up", "about", "into", "through", "during",
    "is", "are", "was", "were", "be", "been", "being", "have", "has", "had",
    "do", "does", "did", "will", "would", "could", "should", "may", "might",
    "can", "this", "that", "these", "those", "we", "our", "use", "using",
    "based", "approach", "method", "paper", "propose", "proposed", "show"
   ] : List String).map String.data

/-- Maximal runs of ASCII alphabetic characters, as matched by the regex
of `tokenize_words` (`[a-zA-Z]+`); `acc` is the current run, reversed. -/
def runsAux : List Char → List Char → List Str
  | [], acc => if acc.isEmpty then [] else [acc.reverse]
  | c :: cs, acc =>
      if c.isAlpha then runsAux cs (c :: acc)
      else if acc.isEmpty then runsAux cs [] else acc.reverse :: runsAux cs []

/-- `tokenize_words` of `load_data.py`: lowercase the text, take maximal
alphabetic runs, keep tokens that are not stopwords and have length > 2. -/
def tokenize_words (text : Str) : List Str :=
  (runsAux (text.map Char.toLower) []).filter
    (fun t => decide (¬ t ∈ STOPWORDS ∧ 2 < t.length))

/-- Occurrence count of a token in a token list (`Counter` multiplicity). -/
def countTok (toks : List Str) (t : Str) : Nat :=
  match toks with
  | [] => 0
  | x :: xs => (if x = t then 1 else 0) + countTok xs t

/-- Index of the first occurrence of a token in a token list. -/
def idxOf (toks : List Str) (t : Str) : Nat :=
  match toks with
  | [] => 0
  | x :: xs => if x = t then 0 else idxOf xs t + 1

/-- First-occurrence deduplication: the iteration order of a Python
`Counter` built from `toks`; `seen` holds tokens already produced. -/
def dedupAux : List Str → List Str → List Str
  | [], _ => []
  | t :: ts, seen =>
      if t ∈ seen then dedupAux ts seen else t :: dedupAux ts (t :: seen)

def firstDedup (toks : List Str) : List Str := dedupAux toks []

/-- The ordering used by `Counter.most_common`: descending frequency,
ties broken by first occurrence (a stable descending sort). -/
def rankRel (toks : List Str) (a b : Str) : Prop :=
  countTok toks b < countTok toks a ∨
    (countTok toks a = countTok toks b ∧ idxOf toks a ≤ idxOf toks b)

instance rankRelDec (toks : List Str) : DecidableRel (rankRel toks) := fun a b => by
  unfold rankRel
  exact inferInstance

/-- `Counter(toks).most_common(k)`: distinct tokens in first-occurrence
order, stably sorted by descending count, truncated to `k`. -/
def most_common (toks : List Str) (k : Nat) : List Str :=
  (List.insertionSort (rankRel toks) (firstDedup toks)).take k

/-- `top_keywords_from_abstract` of `load_data.py`. -/
def top_keywords_from_abstract (abstract : Str) (k : Nat) : List Str :=
  let tokens := tokenize_words abstract
  if tokens.isEmpty then [] else most_common tokens k

/-- `ymd` of `load_data.py`: empty input gives the sentinel; otherwise the
part before the first `T` (if any) is kept when it has at least 10
characters, truncated to 10, else the sentinel. -/
def ymd (date_str_iso : Str) : Str :=
  if date_str_iso.isEmpty then ("0000-00-00").data
  else
    let s := if ('T') ∈ date_str_iso
             then date_str_iso.takeWhile (fun c => decide (c ≠ 'T'))
             else date_str_iso
    if 10 ≤ s.length then s.take 10 else ("0000-00-00").data

/-!
Data model of the loader.  A raw paper is one JSON object of the input
file (string fields are absent or a string; list fields are lists of
strings).  A `PaperDoc` is the canonical document after normalization and
the `compact` pass, and an `Item` is one DynamoDB item: key attributes
are `Option Str` because `compact` removes empty strings.
-/

structure RawPaper where
  arxiv_id : Option Str
  id : Option Str
  title : Option Str
  authors : List Str
  abstract : Option Str
  categories : List Str
  published : Option Str
  date : Option Str
deriving DecidableEq

structure PaperDoc where
  arxiv_id : Str
  title : Option Str
  authors : List Str
  abstract : Option Str
  categories : List Str
  keywords : List Str
  published : Str
deriving DecidableEq

inductive ItemType where
  | master
  | category
  | author
  | keyword
deriving DecidableEq

structure Item where
  PK : Option Str
  SK : Option Str
  GSI1PK : Option Str
  GSI1SK : Option Str
  GSI2PK : Option Str
  GSI2SK : Option Str
  GSI3PK : Option Str
  GSI3SK : Option Str
  item_type : ItemType
  doc : PaperDoc
deriving DecidableEq

/-- `make_master_item` of `load_data.py`. -/
def make_master_item (paper : PaperDoc) (pub_date : Str) : Item :=
  let pk := ("PAPER#").data ++ paper.arxiv_id
  let sk := ("MASTER").data
  let gsi2pk := ("PAPER#").data ++ paper.arxiv_id
  let gsi2sk := strOr pub_date (("0000-00-00").data)
  ⟨compactStr pk, compactStr sk, none, none,
   compactStr gsi2pk, compactStr gsi2sk, none, none, ItemType.master, paper⟩

/-- `make_category_item` of `load_data.py`. -/
def make_category_item (paper : PaperDoc) (category : Str) (pub_date : Str) : Item :=
  let pk := ("CATEGORY#").data ++ category
  let sk := strOr pub_date (("0000-00-00").data) ++ ("#").data ++ paper.arxiv_id
  ⟨compactStr pk, compactStr sk, none, none, none, none, none, none,
   ItemType.category, paper⟩

/-- `make_author_item` of `load_data.py`: `None` for an empty author. -/
def make_author_item (paper : PaperDoc) (author : Str) (pub_date : Str) : Option Item :=
  if author.isEmpty then none
  else
    let pk := ("AUTHORITEM#").data ++ author ++ ("#").data ++ paper.arxiv_id
    let sk := strOr pub_date (("0000-00-00").data) ++ ("#").data ++ paper.arxiv_id
    let gsi1pk := ("AUTHOR#").data ++ author
    some ⟨compactStr pk, compactStr sk, compactStr gsi1pk, compactStr sk,
          none, none, none, none, ItemType.author, paper⟩

/-- `make_keyword_item` of `load_data.py`: `None` for an empty keyword. -/
def make_keyword_item (paper : PaperDoc) (keyword : Str) (pub_date : Str) : Option Item :=
  if keyword.isEmpty then none
  else
    let kw := keyword.map Char.toLower
    let pk := ("KEYWORDITEM#").data ++ kw ++ ("#").data ++ paper.arxiv_id
    let sk := strOr pub_date (("0000-00-00").data) ++ ("#").data ++ paper.arxiv_id
    let gsi3pk := ("KEYWORD#").data ++ kw
    some ⟨compactStr pk, compactStr sk, none, none, none, none,
          compactStr gsi3pk, compactStr sk, ItemType.keyword, paper⟩

/-- A key attribute is truthy when present and non-empty. -/
def keyTruthy (o : Option Str) : Bool :=
  match o with
  | none => false
  | some s => !s.isEmpty

/-- `batch_write` of `load_data.py`, modelled as the sequence of items it
actually submits: items whose `PK` or `SK` is missing or empty are
skipped before submission. -/
def batch_write (items : List Item) : List Item :=
  items.filter (fun it => keyTruthy it.PK && keyTruthy it.SK)

/-!
Normalization of a raw paper, following `transform_and_write`.
-/

/-- `(p.get('arxiv_id') or p.get('id') or "").strip()`. -/
def strippedId (p : RawPaper) : Str :=
  pyStrip (pyGetOr p.arxiv_id (pyGetOr p.id []))

/-- Authors surviving normalization (non-empty after stripping). -/
def filteredAuthors (p : RawPaper) : List Str :=
  p.authors.filter (fun a => !(pyStrip a).isEmpty)

/-- Categories surviving normalization (non-empty after stripping). -/
def filteredCats (p : RawPaper) : List Str :=
  p.categories.filter (fun c => !(pyStrip c).isEmpty)

/-- `p.get('published') or p.get('date') or ""`. -/
def publishedRaw (p : RawPaper) : Str :=
  pyGetOr p.published (pyGetOr p.date [])

/-- The derived `pub_date` of a paper. -/
def pubDate (p : RawPaper) : Str := ymd (publishedRaw p)

/-- The canonical document built by `transform_and_write` (the
`paper_doc` dictionary after the `compact` pass). -/
def normalizeDoc (p : RawPaper) : PaperDoc :=
  let abstract := pyStrip (pyGetOr p.abstract [])
  ⟨strippedId p,
   compactStr (pyStrip (pyGetOr p.title [])),
   filteredAuthors p,
   compactStr abstract,
   filteredCats p,
   top_keywords_from_abstract abstract 10,
   pyGetOr p.published (pubDate p ++ ("T00:00:00Z").data)⟩

/-- The item sequence generated for one canonical document: one master
item, one category item per category, one author item per surviving
author, one keyword item per extracted keyword. -/
def items_for (doc : PaperDoc) (pub_date : Str) : List Item :=
  [make_master_item doc pub_date]
    ++ doc.categories.map (fun c => make_category_item doc c pub_date)
    ++ doc.authors.filterMap (fun a => make_author_item doc a pub_date)
    ++ doc.keywords.filterMap (fun kw => make_keyword_item doc kw pub_date)

/-- The items generated for one raw paper that passed normalization. -/
def generate_items (p : RawPaper) : List Item :=
  items_for (normalizeDoc p) (pubDate p)

/-- `transform_and_write` of `load_data.py`: returns the items submitted
to the store (in order), the number of papers loaded and the total item
count.  Papers with an empty id or no surviving category are skipped. -/
def transform_and_write : List RawPaper → List Item × Nat × Nat
  | [] => ([], 0, 0)
  | p :: ps =>
      if (strippedId p).isEmpty then transform_and_write ps
      else if (filteredCats p).isEmpty then transform_and_write ps
      else
        let its := generate_items p
        let rest := transform_and_write ps
        (batch_write its ++ rest.1, rest.2.1 + 1, rest.2.2 + its.length)

/-- Number of generated items of a given kind. -/
def countType (ty : ItemType) (items : List Item) : Nat :=
  (items.filter (fun it => it.item_type = ty)).length

/-!
Store model: the table is a map from the composite primary key
(PK, SK) to the stored item; a put replaces the item under its key
(`overwrite_by_pkeys` in `batch_write`).
-/

def keyOf (it : Item) : Str × Str := (it.PK.getD [], it.SK.getD [])

def Store := Str × Str → Option Item

def putItem (st : Store) (it : Item) : Store :=
  fun k => if k = keyOf it then some it else st k

def applyBatch (items : List Item) (st : Store) : Store :=
  items.foldl putItem st

/-- One load of a document: submit its generated items to the store. -/
def applyLoad (st : Store) (doc : PaperDoc) (pub_date : Str) : Store :=
  applyBatch (batch_write (items_for doc pub_date)) st

/-!
Query layer.  DynamoDB compares string keys lexicographically (byte
order of the UTF-8 encoding; character order on the ASCII keys this
repository builds).  `lexLt` and `lexLe` model that comparison, and
`dateRangeCondition` models the key condition built by
`query_papers_in_date_range` (also used by the `/papers/search` route).
-/

def lexLt : Str → Str → Bool
  | [], [] => false
  | [], _ :: _ => true
  | _ :: _, [] => false
  | a :: as, b :: bs =>
      if a < b then true else if b < a then false else lexLt as bs

def lexLe (a b : Str) : Bool := !(lexLt b a)

/-- The key condition of `query_papers_in_date_range`: equality on the
category partition key and `between(start ++ "#", end ++ "#zzzzzzz")` on
the sort key, evaluated on a stored key pair. -/
def dateRangeCondition (category start_date end_date : Str) (pk sk : Str) : Bool :=
  pk = (("CATEGORY#").data ++ category)
    ∧ lexLe (start_date ++ ("#").data) sk
    ∧ lexLe sk (end_date ++ (("#zzzzzzz").data))

/-!
HTTP API (`api_server.py`) and CLI (`query_papers.py`).  The store is a
parameter mapping each issued query to its result items; both models
also return the list of store calls actually issued, so that claims
about queries never being issued can be stated.
-/

/-- Python `int(s)` on a string: optional surrounding whitespace, an
optional sign, then digits possibly separated by single underscores.
`none` models the `ValueError` raised on anything else. -/
def pyIntDigits : List Char → Nat → Option Nat
  | [], acc => some acc
  | c :: cs, acc =>
      if c = '_' then
        match cs with
        | [] => none
        | d :: ds => if d.isDigit then pyIntDigits ds (acc * 10 + (d.toNat - 48)) else none
      else if c.isDigit then pyIntDigits cs (acc * 10 + (c.toNat - 48)) else none

def pyInt (s : Str) : Option Int :=
  let t := pyStrip s
  match t with
  | '+' :: rest =>
      match rest with
      | d :: ds => if d.isDigit then (pyIntDigits ds (d.toNat - 48)).map Int.ofNat else none
      | [] => none
  | '-' :: rest =>
      match rest with
      | d :: ds => if d.isDigit then (pyIntDigits ds (d.toNat - 48)).map (fun n => -(Int.ofNat n)) else none
      | [] => none
  | d :: ds => if d.isDigit then (pyIntDigits ds (d.toNat - 48)).map Int.ofNat else none
  | [] => none

/-- One query issued to the store. -/
inductive StoreCall where
  | recentQ (table category : Str) (limit : Int)
  | authorQ (table author : Str)
  | keywordQ (table kw : Str) (limit : Int)
  | searchQ (table category start_date end_date : Str)
  | idQ (table arxiv_id : Str)
deriving DecidableEq

/-- Whether a store call is the point-lookup query (`PaperIdIndex`). -/
def StoreCall.isPointLookup : StoreCall → Bool
  | .idQ _ _ => true
  | _ => false

/-- Response body of the HTTP layer, by route. -/
inductive RespBody where
  | err (msg : Str)
  | health
  | recentList (category : Str) (papers : List Item) (count : Nat)
  | authorList (author : Str) (papers : List Item) (count : Nat)
  | keywordList (kw : Str) (papers : List Item) (count : Nat)
  | searchList (category start_date end_date : Str) (papers : List Item) (count : Nat)
  | paperItem (it : Item)
deriving DecidableEq

/-- First query-string value for a key (`parse_qs(...)[name][0]`),
`none` when the key is absent. -/
def qget (q : List (Str × Str)) (name : Str) : Option Str :=
  (q.find? (fun kv => kv.1 = name)).map (fun kv => kv.2)

/-- Truthiness of an optional query parameter (`if not x`). -/
def optTruthy (o : Option Str) : Bool :=
  match o with
  | none => false
  | some s => !s.isEmpty

def startsWith (p s : Str) : Bool := s.take p.length = p

/-- The limit parameter of a route: default 20 when absent, else parsed
with `int(...)`; `none` models the caught `ValueError`. -/
def limitOf (q : List (Str × Str)) : Option Int :=
  match qget q ("limit").data with
  | none => some 20
  | some s => pyInt s

/-- `Handler.do_GET` of `api_server.py`: the dispatcher, returning the
status code, the response body and the store calls issued. -/
def do_GET (store : StoreCall → List Item) (path : Str) (q : List (Str × Str)) :
    (Nat × RespBody) × List StoreCall :=
  let table := (qget q ("table").data).getD (("arxiv-papers").data)
  if path = ("/health").data then ((200, RespBody.health), [])
  else if path = ("/papers/recent").data then
    if !optTruthy (qget q ("category").data) then
      ((400, RespBody.err (("category is required").data)), [])
    else
      let category := (qget q ("category").data).getD []
      match limitOf q with
      | none => ((400, RespBody.err (("limit must be integer").data)), [])
      | some lim =>
          let items := store (StoreCall.recentQ table category lim)
          ((200, RespBody.recentList category items items.length),
           [StoreCall.recentQ table category lim])
  else if startsWith (("/papers/author/").data) path then
    let author := path.drop (("/papers/author/").data).length
    if author.isEmpty then ((400, RespBody.err (("author is required").data)), [])
    else
      let items := store (StoreCall.authorQ table author)
      ((200, RespBody.authorList author items items.length),
       [StoreCall.authorQ table author])
  else if startsWith (("/papers/keyword/").data) path then
    let kw := path.drop (("/papers/keyword/").data).length
    if kw.isEmpty then ((400, RespBody.err (("keyword is required").data)), [])
    else
      match limitOf q with
      | none => ((400, RespBody.err (("limit must be integer").data)), [])
      | some lim =>
          let items := store (StoreCall.keywordQ table (kw.map Char.toLower) lim)
          ((200, RespBody.keywordList kw items items.length),
           [StoreCall.keywordQ table (kw.map Char.toLower) lim])
  else if path = ("/papers/search").data then
    let category := qget q ("category").data
    let start_date := qget q ("start").data
    let end_date := qget q ("end").data
    if !(optTruthy category && optTruthy start_date && optTruthy end_date) then
      ((400, RespBody.err (("category, start, end are required").data)), [])
    else
      let c := category.getD []
      let s := start_date.getD []
      let e := end_date.getD []
      let items := store (StoreCall.searchQ table c s e)
      ((200, RespBody.searchList c s e items items.length),
       [StoreCall.searchQ table c s e])
  else if startsWith (("/papers/").data) path && path.count '/' = 2 then
    let arxiv_id := path.drop (("/papers/").data).length
    if arxiv_id.isEmpty then ((400, RespBody.err (("arxiv_id is required").data)), [])
    else
      let items := store (StoreCall.idQ table arxiv_id)
      match items with
      | [] => ((404, RespBody.err (("not found").data)), [StoreCall.idQ table arxiv_id])
      | it :: _ => ((200, RespBody.paperItem it), [StoreCall.idQ table arxiv_id])
  else ((404, RespBody.err (("Not Found").data)), [])

/-- CLI payload of `query_papers.py` (the timing field is omitted). -/
inductive CliPayload where
  | err (msg : Str)
  | ok (query_type : Str) (items : List Item)
deriving DecidableEq

/-- `get_flag` of `query_papers.py`: the argument after the first
occurrence of `name`, when there is one. -/
def get_flag : List Str → Str → Option Str
  | [], _ => none
  | a :: rest, name => if a = name then rest.head? else get_flag rest name

/-- The `--limit` flag: default 20 when absent, else `int(...)`. -/
def cliLimit (args : List Str) : Option Int :=
  match get_flag args (("--limit").data) with
  | none => some 20
  | some s => pyInt s

/-- The `--table` flag with the default table name. -/
def cliTable (args : List Str) : Str :=
  strOr ((get_flag args (("--table").data)).getD []) (("arxiv-papers").data)

/-- The message of the `ValueError` raised by `int(...)`. -/
def intErrMsg (s : Str) : Str :=
  ("invalid literal for int with base 10: ").data ++ s

/-- `main` of `query_papers.py`: command dispatch, returning the payload
and the store calls issued.  Exceptions (including the `ValueError` of a
malformed `--limit`) become an error payload before any query runs. -/
def cli_main (store : StoreCall → List Item) (cmd : Str) (args : List Str) :
    CliPayload × List StoreCall :=
  if cmd = ("recent").data then
    match args with
    | [] => (CliPayload.err (("recent <category> [--limit N] [--table T]").data), [])
    | category :: _ =>
        match cliLimit args with
        | none => (CliPayload.err (intErrMsg ((get_flag args (("--limit").data)).getD [])), [])
        | some lim =>
            let items := store (StoreCall.recentQ (cliTable args) category lim)
            (CliPayload.ok (("recent_in_category").data) items,
             [StoreCall.recentQ (cliTable args) category lim])
  else if cmd = ("author").data then
    match args with
    | [] => (CliPayload.err (("author <author_name> [--table T]").data), [])
    | author :: _ =>
        let items := store (StoreCall.authorQ (cliTable args) author)
        (CliPayload.ok (("papers_by_author").data) items,
         [StoreCall.authorQ (cliTable args) author])
  else if cmd = ("get").data then
    match args with
    | [] => (CliPayload.err (("get <arxiv_id> [--table T]").data), [])
    | arxiv_id :: _ =>
        let items := store (StoreCall.idQ (cliTable args) arxiv_id)
        (CliPayload.ok (("get_by_id").data) items,
         [StoreCall.idQ (cliTable args) arxiv_id])
  else if cmd = ("daterange").data then
    match args with
    | category :: start_date :: end_date :: _ =>
        let items := store (StoreCall.searchQ (cliTable args) category start_date end_date)
        (CliPayload.ok (("date_range_in_category").data) items,
         [StoreCall.searchQ (cliTable args) category start_date end_date])
    | _ => (CliPayload.err (("daterange <category> <start_date> <end_date> [--table T]").data), [])
  else if cmd = ("keyword").data then
    match args with
    | [] => (CliPayload.err (("keyword <keyword> [--limit N] [--table T]").data), [])
    | kw :: _ =>
        match cliLimit args with
        | none => (CliPayload.err (intErrMsg ((get_flag args (("--limit").data)).getD [])), [])
        | some lim =>
            let items := store (StoreCall.keywordQ (cliTable args) (kw.map Char.toLower) lim)
            (CliPayload.ok (("papers_by_keyword").data) items,
             [StoreCall.keywordQ (cliTable args) (kw.map Char.toLower) lim])
  else (CliPayload.err (("Unknown command: ").data ++ cmd), [])

/-- The key attributes of an item, in schema order. -/
def keyFields (it : Item) : List (Option Str) :=
  [it.PK, it.SK, it.GSI1PK, it.GSI1SK, it.GSI2PK, it.GSI2SK, it.GSI3PK, it.GSI3SK]

/-- Every key attribute present on the item is a non-empty string, and
the primary key pair is present. -/
def keyAttrsOk (it : Item) : Prop :=
  (∀ o ∈ keyFields it, ∀ s : Str, o = some s → s ≠ []) ∧
    keyTruthy it.PK = true ∧ keyTruthy it.SK = true

/-- The last item of a batch whose composite key is `k`, if any: the one
that survives in the store after the batch is applied in order. -/
def lastPut : List Item → Str × Str → Option Item
  | [], _ => none
  | it :: its, k =>
      match lastPut its k with
      | some v => some v
      | none => if keyOf it = k then some it else none

/-- A raw paper rejected by normalization (no id at all). -/
def sampleBadPaper : RawPaper :=
  RawPaper.mk none none none [] none [] none none

/-- A raw paper that passes normalization. -/
def samplePaper : RawPaper :=
  RawPaper.mk (some (("2301.00001").data)) none (some (("A title").data))
    [("A. Smith").data] (some (("deep learning models deep learning").data))
    [("cs.LG").data] (some (("2023-01-15T00:00:00Z").data)) none

/-!
Helper lemmas.
-/

theorem takeWhile_eq_self_of_not_memT (s : Str) (h : ('T') ∉ s) :
    s.takeWhile (fun c => decide (c ≠ 'T')) = s := by
  induction s with
  | nil => rfl
  | cons c cs ih =>
      have hc : c ≠ 'T' := fun he => h (he ▸ List.mem_cons_self c cs)
      have hmem : ('T') ∉ cs := fun hm => h (List.mem_cons_of_mem c hm)
      simp only [List.takeWhile_cons, decide_not, hc, decide_False, Bool.not_false]
      have hfun : (fun c => !decide (c = 'T')) = (fun c : Char => decide (c ≠ 'T')) := by
        funext x
        simp
      rw [if_pos trivial, hfun, ih hmem]

theorem applyBatch_apply (its : List Item) (st : Store) (k : Str × Str) :
    applyBatch its st k =
      match lastPut its k with
      | some v => some v
      | none => st k := by
  induction its generalizing st with
  | nil => rfl
  | cons it rest ih =>
      show applyBatch rest (putItem st it) k = _
      rw [ih]
      cases h : lastPut rest k with
      | some v => simp [lastPut, h]
      | none =>
          by_cases hk : keyOf it = k
          · simp [lastPut, h, putItem, hk]
          · have hk2 : ¬ k = keyOf it := fun he => hk he.symm
            simp [lastPut, h, putItem, hk, hk2]

/-!
Claim theorems.
-/

/-- Claim C5, counterexample: on the spec test sentence the extractor
does NOT exclude the token for the word written s-h-o-w-s (the stopword
set contains only its singular form), so the result is not limited to
the two tokens the claim allows. -/
theorem C5_counterexample :
    ("shows").data ∈
      top_keywords_from_abstract
        (("the method shows significant significant improvement improvement improvement").data) 10
    ∧ ¬ ((top_keywords_from_abstract
        (("the method shows significant significant improvement improvement improvement").data) 10).length ≤ 2) := by
  decide

/-- Claim C5 (amended): on the test sentence the extractor excludes
the stopwords for the first two words of the sentence, keeps the
third word (only its singular form is a stopword), and returns exactly
the three tokens ordered by frequency 3, 2, 1. -/
theorem C5_amended :
    top_keywords_from_abstract
        (("the method shows significant significant improvement improvement improvement").data) 10
      = [("improvement").data, ("significant").data, ("shows").data]
    ∧ ("the").data ∈ STOPWORDS
    ∧ ("method").data ∈ STOPWORDS
    ∧ ("show").data ∈ STOPWORDS
    ∧ ¬ ("shows").data ∈ STOPWORDS := by
  decide

/-- Claim C7, counterexample: `ymd` first splits at the letter T, so for
a timestamp whose date part is short the result is the sentinel even
though the whole string has at least 10 characters, contradicting the
claim that the result is then the first 10 characters of the string. -/
theorem C7_counterexample :
    ymd (("2023-1-5T00:00:00Z").data) = ("0000-00-00").data
    ∧ 10 ≤ (("2023-1-5T00:00:00Z").data).length
    ∧ ymd (("2023-1-5T00:00:00Z").data) ≠ (("2023-1-5T00:00:00Z").data).take 10 := by
  decide

/-- Claim C7 (amended): the derived publishedDate equals the first 10
characters of the portion of the raw value before the first letter T
when that portion has at least 10 characters, and the sentinel
0000-00-00 otherwise (in particular when the value is absent, empty, or
its pre-T portion is shorter than 10 characters). -/
theorem C7_amended (s : Str) :
    ymd s =
      (if 10 ≤ (s.takeWhile (fun c => decide (c ≠ 'T'))).length
       then (s.takeWhile (fun c => decide (c ≠ 'T'))).take 10
       else ("0000-00-00").data) := by
  by_cases h0 : s.isEmpty
  · have hnil : s = [] := by
      cases s with
      | nil => rfl
      | cons c cs => simp [List.isEmpty] at h0
    subst hnil
    simp [ymd]
  · by_cases hT : ('T') ∈ s
    · simp [ymd, h0, hT]
    · have hw : s.takeWhile (fun c => decide (c ≠ 'T')) = s :=
        takeWhile_eq_self_of_not_memT s hT
      have hw2 : s.takeWhile (fun c => !decide (c = 'T')) = s := by
        have hfun : (fun c => !decide (c = 'T')) = (fun c : Char => decide (c ≠ 'T')) := by
          funext c
          simp
        rw [hfun]
        exact hw
      simp [ymd, h0, hT, hw2]

/-- Claim C8: index-entry generation is a pure function of the document,
and the generated items are addressed by stable composite keys, so
re-loading the same document into the store replaces its entries rather
than creating new ones: applying the load twice equals applying it once. -/
theorem C8_load_idempotent (st : Store) (doc : PaperDoc) (pub_date : Str) :
    applyLoad (applyLoad st doc pub_date) doc pub_date = applyLoad st doc pub_date := by
  funext k
  unfold applyLoad
  rw [applyBatch_apply, applyBatch_apply]
  cases h : lastPut (batch_write (items_for doc pub_date)) k <;> simp [h]

theorem append_isEmpty_false (a x : Str) (h : a.isEmpty = false) :
    (a ++ x).isEmpty = false := by
  cases a with
  | nil => cases h
  | cons c cs => rfl

theorem strOr_isEmpty_false (a b : Str) (hb : b.isEmpty = false) :
    (strOr a b).isEmpty = false := by
  unfold strOr
  by_cases h : a.isEmpty = true
  · rw [if_pos h]
    exact hb
  · rw [if_neg h]
    exact Bool.not_eq_true a.isEmpty ▸ h

theorem presentNonempty_compactStr (x : Str) :
    ∀ s : Str, compactStr x = some s → s ≠ [] := by
  intro s h hnil
  subst hnil
  unfold compactStr at h
  by_cases hx : x.isEmpty = true
  · rw [if_pos hx] at h
    cases h
  · rw [if_neg hx] at h
    cases h
    exact hx rfl

theorem keyTruthy_compactStr (x : Str) (h : x.isEmpty = false) :
    keyTruthy (compactStr x) = true := by
  simp [compactStr, h, keyTruthy]

theorem keyAttrsOk_master (doc : PaperDoc) (pd : Str) :
    keyAttrsOk (make_master_item doc pd) := by
  have h1 : ((("PAPER#").data ++ doc.arxiv_id)).isEmpty = false :=
    append_isEmpty_false _ _ (by decide)
  have h2 : (("MASTER").data).isEmpty = false := by decide
  have h3 : (strOr pd (("0000-00-00").data)).isEmpty = false :=
    strOr_isEmpty_false _ _ (by decide)
  refine ⟨?_, keyTruthy_compactStr _ h1, keyTruthy_compactStr _ h2⟩
  intro o ho s hs
  simp only [make_master_item, keyFields, List.mem_cons, List.not_mem_nil, or_false] at ho
  rcases ho with h | h | h | h | h | h | h | h <;> subst h
  all_goals first
    | exact presentNonempty_compactStr _ s hs
    | cases hs

theorem keyAttrsOk_category (doc : PaperDoc) (c pd : Str) :
    keyAttrsOk (make_category_item doc c pd) := by
  have h1 : ((("CATEGORY#").data ++ c)).isEmpty = false :=
    append_isEmpty_false _ _ (by decide)
  have h2 : ((strOr pd (("0000-00-00").data) ++ ("#").data ++ doc.arxiv_id)).isEmpty = false :=
    append_isEmpty_false _ _ (append_isEmpty_false _ _ (strOr_isEmpty_false _ _ (by decide)))
  refine ⟨?_, keyTruthy_compactStr _ h1, keyTruthy_compactStr _ h2⟩
  intro o ho s hs
  simp only [make_category_item, keyFields, List.mem_cons, List.not_mem_nil, or_false] at ho
  rcases ho with h | h | h | h | h | h | h | h <;> subst h
  all_goals first
    | exact presentNonempty_compactStr _ s hs
    | cases hs

theorem keyAttrsOk_author (doc : PaperDoc) (a pd : Str) (it : Item)
    (h : make_author_item doc a pd = some it) : keyAttrsOk it := by
  unfold make_author_item at h
  by_cases ha : a.isEmpty = true
  · rw [if_pos ha] at h
    cases h
  · rw [if_neg ha] at h
    cases h
    have h1 : ((("AUTHORITEM#").data ++ a ++ ("#").data ++ doc.arxiv_id)).isEmpty = false :=
      append_isEmpty_false _ _ (append_isEmpty_false _ _ (append_isEmpty_false _ _ (by decide)))
    have h2 : ((strOr pd (("0000-00-00").data) ++ ("#").data ++ doc.arxiv_id)).isEmpty = false :=
      append_isEmpty_false _ _ (append_isEmpty_false _ _ (strOr_isEmpty_false _ _ (by decide)))
    refine ⟨?_, keyTruthy_compactStr _ h1, keyTruthy_compactStr _ h2⟩
    intro o ho s hs
    simp only [keyFields, List.mem_cons, List.not_mem_nil, or_false] at ho
    rcases ho with h | h | h | h | h | h | h | h <;> subst h
    all_goals first
      | exact presentNonempty_compactStr _ s hs
      | cases hs

theorem keyAttrsOk_keyword (doc : PaperDoc) (kw pd : Str) (it : Item)
    (h : make_keyword_item doc kw pd = some it) : keyAttrsOk it := by
  unfold make_keyword_item at h
  by_cases hk : kw.isEmpty = true
  · rw [if_pos hk] at h
    cases h
  · rw [if_neg hk] at h
    cases h
    have h1 : ((("KEYWORDITEM#").data ++ kw.map Char.toLower ++ ("#").data ++ doc.arxiv_id)).isEmpty = false :=
      append_isEmpty_false _ _ (append_isEmpty_false _ _ (append_isEmpty_false _ _ (by decide)))
    have h2 : ((strOr pd (("0000-00-00").data) ++ ("#").data ++ doc.arxiv_id)).isEmpty = false :=
      append_isEmpty_false _ _ (append_isEmpty_false _ _ (strOr_isEmpty_false _ _ (by decide)))
    have h3 : ((("KEYWORD#").data ++ kw.map Char.toLower)).isEmpty = false :=
      append_isEmpty_false _ _ (by decide)
    refine ⟨?_, keyTruthy_compactStr _ h1, keyTruthy_compactStr _ h2⟩
    intro o ho s hs
    simp only [keyFields, List.mem_cons, List.not_mem_nil, or_false] at ho
    rcases ho with h | h | h | h | h | h | h | h <;> subst h
    all_goals first
      | exact presentNonempty_compactStr _ s hs
      | cases hs

theorem keyAttrsOk_items_for (doc : PaperDoc) (pd : Str) :
    ∀ it ∈ items_for doc pd, keyAttrsOk it := by
  intro it hit
  simp only [items_for, List.mem_append] at hit
  rcases hit with ((hm | hc) | ha) | hk
  · simp only [List.mem_singleton] at hm
    subst hm
    exact keyAttrsOk_master doc pd
  · rcases List.mem_map.mp hc with ⟨c, _, he⟩
    subst he
    exact keyAttrsOk_category doc c pd
  · rcases List.mem_filterMap.mp ha with ⟨a, _, he⟩
    exact keyAttrsOk_author doc a pd it he
  · rcases List.mem_filterMap.mp hk with ⟨kw, _, he⟩
    exact keyAttrsOk_keyword doc kw pd it he

/-- Claim C2: every key attribute present on a generated item is a
non-empty string, the primary key pair is always present (so the batch
writer submits every generated item unchanged), an empty author or
keyword produces no item at all, and the batch writer submits only
items whose PK and SK are present and non-empty. -/
theorem C2_key_invariant (doc : PaperDoc) (pd : Str) :
    (∀ it ∈ items_for doc pd, keyAttrsOk it)
    ∧ batch_write (items_for doc pd) = items_for doc pd
    ∧ make_author_item doc [] pd = none
    ∧ make_keyword_item doc [] pd = none
    ∧ (∀ its : List Item, ∀ it ∈ batch_write its,
        keyTruthy it.PK = true ∧ keyTruthy it.SK = true) := by
  refine ⟨keyAttrsOk_items_for doc pd, ?_, rfl, rfl, ?_⟩
  · apply List.filter_eq_self.mpr
    intro it hit
    rcases keyAttrsOk_items_for doc pd it hit with ⟨_, hpk, hsk⟩
    simp [hpk, hsk]
  · intro its it hit
    have hp := List.of_mem_filter hit
    rw [Bool.and_eq_true] at hp
    exact hp

/-- Claim C6: a raw paper whose id is missing or empty after trimming,
or whose filtered categories list is empty, contributes no item and no
statistics, and processing continues with the remaining papers. -/
theorem C6_skip_invalid (p : RawPaper) (ps : List RawPaper)
    (h : (strippedId p).isEmpty = true ∨ (filteredCats p).isEmpty = true) :
    transform_and_write (p :: ps) = transform_and_write ps
    ∧ transform_and_write [p] = ([], 0, 0) := by
  rcases h with h | h
  · constructor
    · show (if (strippedId p).isEmpty then _ else _) = _
      rw [if_pos h]
    · show (if (strippedId p).isEmpty then _ else _) = _
      rw [if_pos h]
      rfl
  · by_cases hid : (strippedId p).isEmpty = true
    · constructor
      · show (if (strippedId p).isEmpty then _ else _) = _
        rw [if_pos hid]
      · show (if (strippedId p).isEmpty then _ else _) = _
        rw [if_pos hid]
        rfl
    · rw [Bool.not_eq_true] at hid
      constructor
      · show (if (strippedId p).isEmpty then _ else _) = _
        rw [hid]
        show (if (filteredCats p).isEmpty then _ else _) = _
        rw [if_pos h]
      · show (if (strippedId p).isEmpty then _ else _) = _
        rw [hid]
        show (if (filteredCats p).isEmpty then _ else _) = _
        rw [if_pos h]
        rfl

theorem C6_skip_invalid_witness :
    (strippedId sampleBadPaper).isEmpty = true
    ∧ (transform_and_write [sampleBadPaper] = transform_and_write []
       ∧ transform_and_write [sampleBadPaper] = ([], 0, 0)) :=
  ⟨by decide, C6_skip_invalid sampleBadPaper [] (Or.inl (by decide))⟩

/-!
Counting lemmas for the generated item sequence.
-/

theorem countType_append (ty : ItemType) (l1 l2 : List Item) :
    countType ty (l1 ++ l2) = countType ty l1 + countType ty l2 := by
  simp [countType, List.filter_append]

theorem countType_eq_length_of_all (ty : ItemType) (l : List Item)
    (h : ∀ it ∈ l, it.item_type = ty) : countType ty l = l.length := by
  unfold countType
  rw [List.filter_eq_self.mpr]
  intro it hit
  simp [h it hit]

theorem countType_eq_zero_of_none (ty : ItemType) (l : List Item)
    (h : ∀ it ∈ l, it.item_type ≠ ty) : countType ty l = 0 := by
  unfold countType
  have : l.filter (fun it => it.item_type = ty) = [] := by
    rw [List.filter_eq_nil_iff]
    intro it hit
    simp [h it hit]
  rw [this]
  rfl

theorem item_type_author_some (doc : PaperDoc) (a pd : Str) (it : Item)
    (h : make_author_item doc a pd = some it) : it.item_type = ItemType.author := by
  unfold make_author_item at h
  by_cases ha : a.isEmpty = true
  · rw [if_pos ha] at h
    cases h
  · rw [if_neg ha] at h
    cases h
    rfl

theorem item_type_keyword_some (doc : PaperDoc) (kw pd : Str) (it : Item)
    (h : make_keyword_item doc kw pd = some it) : it.item_type = ItemType.keyword := by
  unfold make_keyword_item at h
  by_cases hk : kw.isEmpty = true
  · rw [if_pos hk] at h
    cases h
  · rw [if_neg hk] at h
    cases h
    rfl

theorem filterMap_author_length (doc : PaperDoc) (pd : Str) (l : List Str)
    (h : ∀ a ∈ l, a.isEmpty = false) :
    (l.filterMap (fun a => make_author_item doc a pd)).length = l.length := by
  induction l with
  | nil => rfl
  | cons a as ih =>
      have ha := h a (List.mem_cons_self a as)
      have hsome : ∃ it, make_author_item doc a pd = some it := by
        unfold make_author_item
        rw [if_neg (by rw [ha]; exact Bool.false_ne_true)]
        exact ⟨_, rfl⟩
      rcases hsome with ⟨it, hit⟩
      simp only [List.filterMap_cons, hit, List.length_cons]
      rw [ih (fun x hx => h x (List.mem_cons_of_mem a hx))]

theorem filterMap_keyword_length (doc : PaperDoc) (pd : Str) (l : List Str)
    (h : ∀ kw ∈ l, kw.isEmpty = false) :
    (l.filterMap (fun kw => make_keyword_item doc kw pd)).length = l.length := by
  induction l with
  | nil => rfl
  | cons a as ih =>
      have ha := h a (List.mem_cons_self a as)
      have hsome : ∃ it, make_keyword_item doc a pd = some it := by
        unfold make_keyword_item
        rw [if_neg (by rw [ha]; exact Bool.false_ne_true)]
        exact ⟨_, rfl⟩
      rcases hsome with ⟨it, hit⟩
      simp only [List.filterMap_cons, hit, List.length_cons]
      rw [ih (fun x hx => h x (List.mem_cons_of_mem a hx))]

/-!
Keyword-extraction lemmas.
-/

theorem mem_dedupAux (x : Str) (l : List Str) :
    ∀ seen : List Str, x ∈ dedupAux l seen → x ∈ l := by
  induction l with
  | nil => intro seen h; cases h
  | cons t ts ih =>
      intro seen h
      unfold dedupAux at h
      by_cases hm : t ∈ seen
      · rw [if_pos hm] at h
        exact List.mem_cons_of_mem t (ih seen h)
      · rw [if_neg hm] at h
        rcases List.mem_cons.mp h with he | hr
        · exact he ▸ List.mem_cons_self t ts
        · exact List.mem_cons_of_mem t (ih (t :: seen) hr)

theorem mem_most_common (toks : List Str) (k : Nat) (t : Str)
    (h : t ∈ most_common toks k) : t ∈ toks := by
  unfold most_common at h
  have h1 := List.mem_of_mem_take h
  have h2 := (List.mem_insertionSort (rankRel toks)).mp h1
  exact mem_dedupAux t toks [] h2

theorem mem_top_keywords (ab : Str) (k : Nat) (t : Str)
    (h : t ∈ top_keywords_from_abstract ab k) : t ∈ tokenize_words ab := by
  unfold top_keywords_from_abstract at h
  by_cases he : (tokenize_words ab).isEmpty = true
  · simp only [he, if_true] at h
    cases h
  · simp only [he, Bool.false_eq_true, if_false] at h
    exact mem_most_common _ k t h

theorem tokenize_props (text t : Str) (h : t ∈ tokenize_words text) :
    ¬ t ∈ STOPWORDS ∧ 2 < t.length := by
  unfold tokenize_words at h
  exact of_decide_eq_true (List.mem_filter.mp h).2

theorem top_keyword_isEmpty_false (ab : Str) (k : Nat) (t : Str)
    (h : t ∈ top_keywords_from_abstract ab k) : t.isEmpty = false := by
  have hl := (tokenize_props ab t (mem_top_keywords ab k t h)).2
  cases t with
  | nil => cases hl
  | cons c cs => rfl

theorem top_keywords_length_le (ab : Str) (k : Nat) :
    (top_keywords_from_abstract ab k).length ≤ k := by
  unfold top_keywords_from_abstract
  by_cases he : (tokenize_words ab).isEmpty = true
  · simp [he]
  · simp only [he, Bool.false_eq_true, if_false]
    unfold most_common
    exact List.length_take_le _ _

/-- Claim C1: for a raw paper that passes normalization, the generated
item sequence has exactly 1 master item, one category item per
surviving category, one author item per surviving non-empty author
string (hence at most the raw author count), and one keyword item per
extracted keyword (hence at most 10). -/
theorem C1_item_counts (p : RawPaper)
    (_hid : (strippedId p).isEmpty = false)
    (_hcat : (filteredCats p).isEmpty = false) :
    countType ItemType.master (generate_items p) = 1
    ∧ countType ItemType.category (generate_items p) = (filteredCats p).length
    ∧ countType ItemType.author (generate_items p) = (filteredAuthors p).length
    ∧ (filteredAuthors p).length ≤ p.authors.length
    ∧ countType ItemType.keyword (generate_items p) = (normalizeDoc p).keywords.length
    ∧ countType ItemType.keyword (generate_items p) ≤ 10 := by
  have hkeys : (normalizeDoc p).keywords
      = top_keywords_from_abstract (pyStrip (pyGetOr p.abstract [])) 10 := rfl
  have hcats : (normalizeDoc p).categories = filteredCats p := rfl
  have hauths : (normalizeDoc p).authors = filteredAuthors p := rfl
  have hGen : generate_items p =
      [make_master_item (normalizeDoc p) (pubDate p)]
        ++ ((normalizeDoc p).categories.map fun c => make_category_item (normalizeDoc p) c (pubDate p))
        ++ ((normalizeDoc p).authors.filterMap fun a => make_author_item (normalizeDoc p) a (pubDate p))
        ++ ((normalizeDoc p).keywords.filterMap fun kw => make_keyword_item (normalizeDoc p) kw (pubDate p)) := rfl
  have hAuthNE : ∀ a ∈ (normalizeDoc p).authors, a.isEmpty = false := by
    intro a ha
    rw [hauths] at ha
    have hp := (List.mem_filter.mp ha).2
    cases a with
    | nil => exact absurd hp (by decide)
    | cons c cs => rfl
  have hKwNE : ∀ kw ∈ (normalizeDoc p).keywords, kw.isEmpty = false := by
    intro kw hk
    rw [hkeys] at hk
    exact top_keyword_isEmpty_false _ 10 kw hk
  have hMall : ∀ it ∈ [make_master_item (normalizeDoc p) (pubDate p)],
      it.item_type = ItemType.master := by
    intro it hit
    rcases List.mem_singleton.mp hit with rfl
    rfl
  have hCall : ∀ it ∈ ((normalizeDoc p).categories.map fun c => make_category_item (normalizeDoc p) c (pubDate p)),
      it.item_type = ItemType.category := by
    intro it hit
    rcases List.mem_map.mp hit with ⟨c, _, he⟩
    subst he
    rfl
  have hAall : ∀ it ∈ ((normalizeDoc p).authors.filterMap fun a => make_author_item (normalizeDoc p) a (pubDate p)),
      it.item_type = ItemType.author := by
    intro it hit
    rcases List.mem_filterMap.mp hit with ⟨a, _, he⟩
    exact item_type_author_some _ a _ it he
  have hKall : ∀ it ∈ ((normalizeDoc p).keywords.filterMap fun kw => make_keyword_item (normalizeDoc p) kw (pubDate p)),
      it.item_type = ItemType.keyword := by
    intro it hit
    rcases List.mem_filterMap.mp hit with ⟨kw, _, he⟩
    exact item_type_keyword_some _ kw _ it he
  have z : ∀ (ty : ItemType) (l : List Item) (ty' : ItemType),
      (∀ it ∈ l, it.item_type = ty') → ty' ≠ ty → countType ty l = 0 := by
    intro ty l ty' hall hne
    apply countType_eq_zero_of_none
    intro it hit
    rw [hall it hit]
    exact hne
  refine ⟨?_, ?_, ?_, ?_, ?_, ?_⟩
  · rw [hGen]
    simp only [countType_append]
    rw [countType_eq_length_of_all _ _ hMall,
        z _ _ _ hCall (by decide), z _ _ _ hAall (by decide), z _ _ _ hKall (by decide)]
    rfl
  · rw [hGen]
    simp only [countType_append]
    rw [countType_eq_length_of_all _ _ hCall,
        z _ _ _ hMall (by decide), z _ _ _ hAall (by decide), z _ _ _ hKall (by decide),
        List.length_map, hcats]
    omega
  · rw [hGen]
    simp only [countType_append]
    rw [countType_eq_length_of_all _ _ hAall,
        z _ _ _ hMall (by decide), z _ _ _ hCall (by decide), z _ _ _ hKall (by decide),
        filterMap_author_length _ _ _ hAuthNE, hauths]
    omega
  · exact List.length_filter_le _ _
  · rw [hGen]
    simp only [countType_append]
    rw [countType_eq_length_of_all _ _ hKall,
        z _ _ _ hMall (by decide), z _ _ _ hCall (by decide), z _ _ _ hAall (by decide),
        filterMap_keyword_length _ _ _ hKwNE]
    omega
  · rw [hGen]
    simp only [countType_append]
    rw [countType_eq_length_of_all _ _ hKall,
        z _ _ _ hMall (by decide), z _ _ _ hCall (by decide), z _ _ _ hAall (by decide),
        filterMap_keyword_length _ _ _ hKwNE, hkeys]
    have := top_keywords_length_le (pyStrip (pyGetOr p.abstract [])) 10
    omega

theorem C1_item_counts_witness :
    (strippedId samplePaper).isEmpty = false
    ∧ (filteredCats samplePaper).isEmpty = false
    ∧ (countType ItemType.master (generate_items samplePaper) = 1
       ∧ countType ItemType.category (generate_items samplePaper) = (filteredCats samplePaper).length
       ∧ countType ItemType.author (generate_items samplePaper) = (filteredAuthors samplePaper).length
       ∧ (filteredAuthors samplePaper).length ≤ samplePaper.authors.length
       ∧ countType ItemType.keyword (generate_items samplePaper) = (normalizeDoc samplePaper).keywords.length
       ∧ countType ItemType.keyword (generate_items samplePaper) ≤ 10) :=
  ⟨by decide, by decide, C1_item_counts samplePaper (by decide) (by decide)⟩

theorem dedupAux_not_mem_seen (l : List Str) :
    ∀ seen x, x ∈ dedupAux l seen → x ∉ seen := by
  induction l with
  | nil => intro seen x h; cases h
  | cons t ts ih =>
      intro seen x h
      unfold dedupAux at h
      by_cases hm : t ∈ seen
      · rw [if_pos hm] at h
        exact ih seen x h
      · rw [if_neg hm] at h
        rcases List.mem_cons.mp h with he | hr
        · subst he
          exact hm
        · intro hx
          exact ih (t :: seen) x hr (List.mem_cons_of_mem t hx)

theorem dedupAux_nodup (l : List Str) : ∀ seen, (dedupAux l seen).Nodup := by
  induction l with
  | nil => intro seen; exact List.nodup_nil
  | cons t ts ih =>
      intro seen
      unfold dedupAux
      by_cases hm : t ∈ seen
      · rw [if_pos hm]
        exact ih seen
      · rw [if_neg hm]
        refine List.nodup_cons.mpr ⟨?_, ih (t :: seen)⟩
        intro hmem
        exact dedupAux_not_mem_seen ts (t :: seen) t hmem (List.mem_cons_self t seen)

theorem idxOf_inj (toks : List Str) :
    ∀ a b, a ∈ toks → b ∈ toks → idxOf toks a = idxOf toks b → a = b := by
  induction toks with
  | nil => intro a b ha _ _; cases ha
  | cons x xs ih =>
      intro a b ha hb he
      unfold idxOf at he
      by_cases hxa : x = a
      · by_cases hxb : x = b
        · rw [← hxa, ← hxb]
        · rw [if_pos hxa, if_neg hxb] at he
          exact absurd he (by omega)
      · by_cases hxb : x = b
        · rw [if_neg hxa, if_pos hxb] at he
          exact absurd he (by omega)
        · rw [if_neg hxa, if_neg hxb] at he
          have ha2 : a ∈ xs := by
            rcases List.mem_cons.mp ha with h | h
            · exact absurd h.symm hxa
            · exact h
          have hb2 : b ∈ xs := by
            rcases List.mem_cons.mp hb with h | h
            · exact absurd h.symm hxb
            · exact h
          exact ih a b ha2 hb2 (by omega)

theorem rankRel_total (toks : List Str) :
    ∀ a b, rankRel toks a b ∨ rankRel toks b a := by
  intro a b
  unfold rankRel
  rcases Nat.lt_trichotomy (countTok toks a) (countTok toks b) with h | h | h
  · exact Or.inr (Or.inl h)
  · rcases Nat.le_total (idxOf toks a) (idxOf toks b) with hi | hi
    · exact Or.inl (Or.inr ⟨h, hi⟩)
    · exact Or.inr (Or.inr ⟨h.symm, hi⟩)
  · exact Or.inl (Or.inl h)

theorem rankRel_trans (toks : List Str) :
    ∀ a b c, rankRel toks a b → rankRel toks b c → rankRel toks a c := by
  intro a b c hab hbc
  unfold rankRel at hab hbc ⊢
  rcases hab with h1 | h1 <;> rcases hbc with h2 | h2
  · exact Or.inl (lt_trans h2 h1)
  · exact Or.inl (by omega)
  · exact Or.inl (by omega)
  · exact Or.inr ⟨by omega, le_trans h1.2 h2.2⟩

/-- Claim C4: keyword extraction returns at most k distinct tokens, each
a kept token of the tokenizer (not a stopword, length > 2), yields the
empty sequence when no token survives, and orders its output by
descending frequency with ties broken by first occurrence. -/
theorem C4_extraction (text : Str) (k : Nat) :
    (top_keywords_from_abstract text k).length ≤ k
    ∧ (top_keywords_from_abstract text k).Nodup
    ∧ (∀ t ∈ top_keywords_from_abstract text k,
        t ∈ tokenize_words text ∧ ¬ t ∈ STOPWORDS ∧ 2 < t.length)
    ∧ (tokenize_words text = [] → top_keywords_from_abstract text k = [])
    ∧ (top_keywords_from_abstract text k).Pairwise (fun a b =>
        countTok (tokenize_words text) b ≤ countTok (tokenize_words text) a
        ∧ (countTok (tokenize_words text) a = countTok (tokenize_words text) b →
            idxOf (tokenize_words text) a < idxOf (tokenize_words text) b)) := by
  refine ⟨top_keywords_length_le text k, ?_, ?_, ?_, ?_⟩
  · by_cases he : (tokenize_words text).isEmpty = true
    · unfold top_keywords_from_abstract
      simp [he]
    · unfold top_keywords_from_abstract
      simp only [he, Bool.false_eq_true, if_false]
      unfold most_common
      have hnd : (List.insertionSort (rankRel (tokenize_words text)) (firstDedup (tokenize_words text))).Nodup :=
        ((List.perm_insertionSort _ _).nodup_iff).mpr (dedupAux_nodup _ [])
      exact hnd.sublist (List.take_sublist k _)
  · intro t ht
    refine ⟨mem_top_keywords text k t ht, tokenize_props text t (mem_top_keywords text k t ht)⟩
  · intro h
    unfold top_keywords_from_abstract
    simp [h]
  · by_cases he : (tokenize_words text).isEmpty = true
    · unfold top_keywords_from_abstract
      simp [he]
    · have hmem : ∀ t ∈ top_keywords_from_abstract text k, t ∈ tokenize_words text :=
        fun t ht => mem_top_keywords text k t ht
      have hnd : (top_keywords_from_abstract text k).Nodup := by
        unfold top_keywords_from_abstract
        simp only [he, Bool.false_eq_true, if_false]
        unfold most_common
        have hnd2 : (List.insertionSort (rankRel (tokenize_words text)) (firstDedup (tokenize_words text))).Nodup :=
          ((List.perm_insertionSort _ _).nodup_iff).mpr (dedupAux_nodup _ [])
        exact hnd2.sublist (List.take_sublist k _)
      have hsorted : (top_keywords_from_abstract text k).Pairwise (rankRel (tokenize_words text)) := by
        unfold top_keywords_from_abstract
        simp only [he, Bool.false_eq_true, if_false]
        unfold most_common
        haveI : IsTotal Str (rankRel (tokenize_words text)) := ⟨rankRel_total _⟩
        haveI : IsTrans Str (rankRel (tokenize_words text)) := ⟨rankRel_trans _⟩
        have hs := List.sorted_insertionSort (rankRel (tokenize_words text)) (firstDedup (tokenize_words text))
        exact hs.sublist (List.take_sublist k _)
      have hcomb := hsorted.and hnd
      apply hcomb.imp_of_mem
      intro a b hain hbin hr
      rcases hr with ⟨hr, hne⟩
      rcases hr with hlt | ⟨heq, hle⟩
      · exact ⟨le_of_lt hlt, fun hc => absurd hc (by omega)⟩
      · refine ⟨heq.ge, fun _ => ?_⟩
        have hidx : idxOf (tokenize_words text) a ≠ idxOf (tokenize_words text) b := by
          intro hcon
          exact hne (idxOf_inj _ a b (hmem a hain) (hmem b hbin) hcon)
        omega

theorem lexLt_nil_right (a : Str) : lexLt a [] = false := by
  cases a <;> rfl

theorem lexLe_iff (u v : Str) : lexLe u v = true ↔ lexLt v u = false := by
  unfold lexLe
  cases h : lexLt v u <;> simp

theorem lexLt_asymm (a : Str) : ∀ b, lexLt a b = true → lexLt b a = false := by
  induction a with
  | nil =>
      intro b h
      cases b with
      | nil => exact absurd h (by decide)
      | cons y ys => rfl
  | cons x xs ih =>
      intro b h
      cases b with
      | nil => exact absurd h (by simp [lexLt_nil_right] at h)
      | cons y ys =>
          by_cases h1 : x < y
          · have h2 : ¬ y < x := lt_asymm h1
            show (if y < x then true else if x < y then false else lexLt ys xs) = false
            rw [if_neg h2, if_pos h1]
          · by_cases h2 : y < x
            · have e : lexLt (x :: xs) (y :: ys) = false := by
                show (if x < y then true else if y < x then false else lexLt xs ys) = false
                rw [if_neg h1, if_pos h2]
              rw [e] at h
              exact absurd h Bool.false_ne_true
            · have hx : lexLt xs ys = true := by
                have e : lexLt (x :: xs) (y :: ys) = lexLt xs ys := by
                  show (if x < y then true else if y < x then false else lexLt xs ys) = _
                  rw [if_neg h1, if_neg h2]
                rw [e] at h
                exact h
              show (if y < x then true else if x < y then false else lexLt ys xs) = false
              rw [if_neg h2, if_neg h1]
              exact ih ys hx

theorem lexLt_eq_of_not (a : Str) :
    ∀ b, lexLt a b = false → lexLt b a = false → a = b := by
  induction a with
  | nil =>
      intro b h1 _
      cases b with
      | nil => rfl
      | cons y ys => exact absurd h1 (by simp [lexLt])
  | cons x xs ih =>
      intro b h1 h2
      cases b with
      | nil => exact absurd h2 (by simp [lexLt])
      | cons y ys =>
          by_cases hxy : x < y
          · have e : lexLt (x :: xs) (y :: ys) = true := by
              show (if x < y then true else if y < x then false else lexLt xs ys) = true
              rw [if_pos hxy]
            rw [e] at h1
            exact absurd h1 (by decide)
          · by_cases hyx : y < x
            · have e : lexLt (y :: ys) (x :: xs) = true := by
                show (if y < x then true else if x < y then false else lexLt ys xs) = true
                rw [if_pos hyx]
              rw [e] at h2
              exact absurd h2 (by decide)
            · have hx : x = y := le_antisymm (le_of_not_lt hyx) (le_of_not_lt hxy)
              have e1 : lexLt (x :: xs) (y :: ys) = lexLt xs ys := by
                show (if x < y then true else if y < x then false else lexLt xs ys) = _
                rw [if_neg hxy, if_neg hyx]
              have e2 : lexLt (y :: ys) (x :: xs) = lexLt ys xs := by
                show (if y < x then true else if x < y then false else lexLt ys xs) = _
                rw [if_neg hyx, if_neg hxy]
              rw [e1] at h1
              rw [e2] at h2
              rw [hx, ih ys h1 h2]

theorem lexLt_append_left (p : Str) : ∀ x y, lexLt (p ++ x) (p ++ y) = lexLt x y := by
  induction p with
  | nil => intro x y; rfl
  | cons c cs ih =>
      intro x y
      show (if c < c then true else if c < c then false else lexLt (cs ++ x) (cs ++ y)) = _
      rw [if_neg (lt_irrefl c), if_neg (lt_irrefl c)]
      exact ih x y

theorem lexLt_append_of_lt (a : Str) :
    ∀ b, a.length = b.length → lexLt a b = true →
      ∀ x y, lexLt (a ++ x) (b ++ y) = true := by
  induction a with
  | nil =>
      intro b hl h
      cases b with
      | nil => exact absurd h (by decide)
      | cons y ys => exact absurd hl (by simp)
  | cons c cs ih =>
      intro b hl h
      cases b with
      | nil => exact absurd hl (by simp)
      | cons d ds =>
          intro x y
          by_cases hcd : c < d
          · show (if c < d then true else if d < c then false else lexLt (cs ++ x) (ds ++ y)) = true
            rw [if_pos hcd]
          · by_cases hdc : d < c
            · have e : lexLt (c :: cs) (d :: ds) = false := by
                show (if c < d then true else if d < c then false else lexLt cs ds) = false
                rw [if_neg hcd, if_pos hdc]
              rw [e] at h
              exact absurd h (by decide)
            · have hrec : lexLt cs ds = true := by
                have e : lexLt (c :: cs) (d :: ds) = lexLt cs ds := by
                  show (if c < d then true else if d < c then false else lexLt cs ds) = _
                  rw [if_neg hcd, if_neg hdc]
                rw [e] at h
                exact h
              show (if c < d then true else if d < c then false else lexLt (cs ++ x) (ds ++ y)) = true
              rw [if_neg hcd, if_neg hdc]
              exact ih ds (by simpa using hl) hrec x y

/-- Claim C3: the date-range key condition, whose sort-key range runs
from start ++ # to end ++ #zzzzzzz, matches a stored category entry with
sort key d ++ # ++ id (dates of equal length, id sorting no later than
zzzzzzz) exactly when start ≤ d ≤ end in the lexicographic order. -/
theorem C3_date_range (category start_date end_date d id : Str)
    (hds : d.length = start_date.length)
    (hde : d.length = end_date.length)
    (hid : lexLe id (("zzzzzzz").data) = true) :
    dateRangeCondition category start_date end_date
        ((("CATEGORY#").data ++ category)) (d ++ ("#").data ++ id) = true
      ↔ (lexLe start_date d = true ∧ lexLe d end_date = true) := by
  unfold dateRangeCondition
  simp only [decide_eq_true_eq, true_and, eq_self_iff_true]
  constructor
  · rintro ⟨h1, h2⟩
    constructor
    · rw [lexLe_iff]
      cases hlt : lexLt d start_date with
      | false => rfl
      | true =>
          exfalso
          have hc := lexLt_append_of_lt d start_date hds hlt
            (("#").data ++ id) (("#").data)
          rw [← List.append_assoc] at hc
          have h1f := (lexLe_iff _ _).mp h1
          rw [h1f] at hc
          exact absurd hc (by decide)
    · rw [lexLe_iff]
      cases hlt : lexLt end_date d with
      | false => rfl
      | true =>
          exfalso
          have hc := lexLt_append_of_lt end_date d hde.symm hlt
            ((("#zzzzzzz").data)) (("#").data ++ id)
          rw [← List.append_assoc] at hc
          have h2f := (lexLe_iff _ _).mp h2
          rw [h2f] at hc
          exact absurd hc (by decide)
  · rintro ⟨ha, hb⟩
    have haf := (lexLe_iff _ _).mp ha
    have hbf := (lexLe_iff _ _).mp hb
    constructor
    · rw [lexLe_iff]
      by_cases hsd : lexLt start_date d = true
      · have hc := lexLt_append_of_lt start_date d hds.symm hsd
          (("#").data) (("#").data ++ id)
        have := lexLt_asymm _ _ hc
        rw [← List.append_assoc] at this
        exact this
      · have hsd2 : lexLt start_date d = false := by
          cases h : lexLt start_date d
          · rfl
          · exact absurd h hsd
        have heq : start_date = d := lexLt_eq_of_not start_date d hsd2 haf
        subst heq
        have e : (start_date ++ ("#").data) ++ id
            = (start_date ++ ("#").data) ++ id := rfl
        calc lexLt (start_date ++ ("#").data ++ id) (start_date ++ ("#").data)
            = lexLt ((start_date ++ ("#").data) ++ id) ((start_date ++ ("#").data) ++ []) := by
              rw [List.append_nil]
          _ = lexLt id [] := lexLt_append_left _ id []
          _ = false := lexLt_nil_right id
    · rw [lexLe_iff]
      by_cases hdE : lexLt d end_date = true
      · have hc := lexLt_append_of_lt d end_date hde hdE
          (("#").data ++ id) ((("#zzzzzzz").data))
        have := lexLt_asymm _ _ hc
        rw [← List.append_assoc] at this
        exact this
      · have hdE2 : lexLt d end_date = false := by
          cases h : lexLt d end_date
          · rfl
          · exact absurd h hdE
        have heq : d = end_date := lexLt_eq_of_not d end_date hdE2 hbf
        subst heq
        have hz : (("#zzzzzzz").data : Str) = ("#").data ++ ("zzzzzzz").data := by decide
        calc lexLt (d ++ ("#zzzzzzz").data) (d ++ ("#").data ++ id)
            = lexLt (d ++ (("#").data ++ ("zzzzzzz").data)) (d ++ (("#").data ++ id)) := by
              rw [← hz, List.append_assoc]
          _ = lexLt ((("#").data ++ ("zzzzzzz").data)) ((("#").data ++ id)) :=
              lexLt_append_left d _ _
          _ = lexLt (("zzzzzzz").data) id := lexLt_append_left (("#").data) _ _
          _ = false := (lexLe_iff _ _).mp hid

theorem C3_date_range_witness :
    (dateRangeCondition (("cs.LG").data) (("2023-05-01").data) (("2023-05-31").data)
        ((("CATEGORY#").data ++ ("cs.LG").data))
        ((("2023-05-15").data) ++ ("#").data ++ (("2301.00001").data)) = true)
    ∧ (dateRangeCondition (("cs.LG").data) (("2023-05-01").data) (("2023-05-31").data)
        ((("CATEGORY#").data ++ ("cs.LG").data))
        ((("2023-06-01").data) ++ ("#").data ++ (("2301.00001").data)) = false) :=
  ⟨(C3_date_range (("cs.LG").data) (("2023-05-01").data) (("2023-05-31").data)
      (("2023-05-15").data) (("2301.00001").data)
      (by decide) (by decide) (by decide)).mpr (by decide),
   by decide⟩

theorem startsWith_append (p a x : Str) (h : p.length ≤ a.length) :
    startsWith p (a ++ x) = startsWith p a := by
  unfold startsWith
  rw [List.take_append_of_le_length h]

theorem append_ne_of_len (a x b : Str) (h : b.length < a.length) : a ++ x ≠ b := by
  intro he
  have h2 : (a ++ x).length = b.length := congrArg List.length he
  rw [List.length_append] at h2
  omega

/-- Claim C9: a non-integer limit parameter makes the recent and keyword
queries fail with a validation error (HTTP 400 body, or CLI error
payload) before any store query is issued. -/
theorem C9_bad_limit (store : StoreCall → List Item) (q : List (Str × Str)) (s : Str)
    (hq : qget q (("limit").data) = some s) (hpy : pyInt s = none) :
    (optTruthy (qget q (("category").data)) = true →
        do_GET store (("/papers/recent").data) q
          = ((400, RespBody.err (("limit must be integer").data)), []))
    ∧ (∀ kw : Str, kw.isEmpty = false →
        do_GET store ((("/papers/keyword/").data ++ kw)) q
          = ((400, RespBody.err (("limit must be integer").data)), []))
    ∧ (∀ category : Str, category ≠ ("--limit").data →
        cli_main store (("recent").data) [category, ("--limit").data, s]
          = (CliPayload.err (intErrMsg s), []))
    ∧ (∀ kw : Str, kw ≠ ("--limit").data →
        cli_main store (("keyword").data) [kw, ("--limit").data, s]
          = (CliPayload.err (intErrMsg s), [])) := by
  refine ⟨?_, ?_, ?_, ?_⟩
  · intro hcat
    unfold do_GET
    rw [if_neg (by decide), if_pos rfl, hcat]
    simp only [Bool.not_true, Bool.false_eq_true, if_false, limitOf, hq, hpy]
  · intro kw hkw
    unfold do_GET
    rw [if_neg (append_ne_of_len _ _ _ (by decide)),
        if_neg (append_ne_of_len _ _ _ (by decide)),
        startsWith_append _ _ _ (by decide)]
    rw [if_neg (by decide)]
    rw [startsWith_append _ _ _ (by decide)]
    rw [if_pos (by decide)]
    rw [List.drop_left]
    simp only [hkw, Bool.false_eq_true, if_false, limitOf, hq, hpy]
  · intro category hc
    unfold cli_main
    rw [if_pos rfl]
    have hflag : get_flag [category, ("--limit").data, s] (("--limit").data) = some s := by
      unfold get_flag
      rw [if_neg hc]
      unfold get_flag
      rw [if_pos rfl]
      rfl
    simp only [cliLimit, hflag, hpy]
    rfl
  · intro kw hc
    unfold cli_main
    rw [if_neg (by decide), if_neg (by decide), if_neg (by decide), if_neg (by decide),
        if_pos rfl]
    have hflag : get_flag [kw, ("--limit").data, s] (("--limit").data) = some s := by
      unfold get_flag
      rw [if_neg hc]
      unfold get_flag
      rw [if_pos rfl]
      rfl
    simp only [cliLimit, hflag, hpy]
    rfl

theorem C9_bad_limit_witness :
    qget [((("category").data), (("cs.LG").data)), ((("limit").data), (("abc").data))]
        (("limit").data) = some (("abc").data)
    ∧ pyInt (("abc").data) = none
    ∧ do_GET (fun _ => []) (("/papers/recent").data)
        [((("category").data), (("cs.LG").data)), ((("limit").data), (("abc").data))]
        = ((400, RespBody.err (("limit must be integer").data)), [])
    ∧ do_GET (fun _ => []) ((("/papers/keyword/").data ++ ("deep").data))
        [((("category").data), (("cs.LG").data)), ((("limit").data), (("abc").data))]
        = ((400, RespBody.err (("limit must be integer").data)), [])
    ∧ cli_main (fun _ => []) (("recent").data)
        [("cs.LG").data, ("--limit").data, ("abc").data]
        = (CliPayload.err (intErrMsg (("abc").data)), [])
    ∧ cli_main (fun _ => []) (("keyword").data)
        [("deep").data, ("--limit").data, ("abc").data]
        = (CliPayload.err (intErrMsg (("abc").data)), []) :=
  ⟨by decide, by decide,
   (C9_bad_limit (fun _ => [])
      [((("category").data), (("cs.LG").data)), ((("limit").data), (("abc").data))]
      (("abc").data) (by decide) (by decide)).1 (by decide),
   (C9_bad_limit (fun _ => [])
      [((("category").data), (("cs.LG").data)), ((("limit").data), (("abc").data))]
      (("abc").data) (by decide) (by decide)).2.1 (("deep").data) (by decide),
   (C9_bad_limit (fun _ => [])
      [((("category").data), (("cs.LG").data)), ((("limit").data), (("abc").data))]
      (("abc").data) (by decide) (by decide)).2.2.1 (("cs.LG").data) (by decide),
   (C9_bad_limit (fun _ => [])
      [((("category").data), (("cs.LG").data)), ((("limit").data), (("abc").data))]
      (("abc").data) (by decide) (by decide)).2.2.2 (("deep").data) (by decide)⟩

theorem do_GET_idQ (store : StoreCall → List Item) (path : Str) (q : List (Str × Str))
    (t aid : Str) (hmem : (StoreCall.idQ t aid) ∈ (do_GET store path q).2) :
    path ≠ ("/papers/recent").data ∧ path ≠ ("/papers/search").data
    ∧ path.count '/' = 2 := by
  unfold do_GET at hmem
  by_cases h1 : path = ("/health").data
  · rw [if_pos h1] at hmem
    exact absurd hmem (List.not_mem_nil _)
  · rw [if_neg h1] at hmem
    by_cases h2 : path = ("/papers/recent").data
    · rw [if_pos h2] at hmem
      exfalso
      by_cases hcat : optTruthy (qget q (("category").data)) = true
      · simp only [hcat, Bool.not_true, Bool.false_eq_true, if_false] at hmem
        cases hlim : limitOf q with
        | none =>
            simp only [hlim] at hmem
            exact absurd hmem (List.not_mem_nil _)
        | some lim =>
            simp only [hlim] at hmem
            simp at hmem
      · simp only [Bool.not_eq_true] at hcat
        simp only [hcat, Bool.not_false, if_true] at hmem
        exact absurd hmem (List.not_mem_nil _)
    · rw [if_neg h2] at hmem
      by_cases h3 : startsWith (("/papers/author/").data) path = true
      · rw [if_pos h3] at hmem
        exfalso
        by_cases ha : (path.drop (("/papers/author/").data).length).isEmpty = true
        · simp only [ha, if_true] at hmem
          exact absurd hmem (List.not_mem_nil _)
        · simp only [ha, Bool.false_eq_true, if_false] at hmem
          simp at hmem
      · rw [if_neg h3] at hmem
        by_cases h4 : startsWith (("/papers/keyword/").data) path = true
        · rw [if_pos h4] at hmem
          exfalso
          by_cases hk : (path.drop (("/papers/keyword/").data).length).isEmpty = true
          · simp only [hk, if_true] at hmem
            exact absurd hmem (List.not_mem_nil _)
          · simp only [hk, Bool.false_eq_true, if_false] at hmem
            cases hlim : limitOf q with
            | none =>
                simp only [hlim] at hmem
                exact absurd hmem (List.not_mem_nil _)
            | some lim =>
                simp only [hlim] at hmem
                simp at hmem
        · rw [if_neg h4] at hmem
          by_cases h5 : path = ("/papers/search").data
          · rw [if_pos h5] at hmem
            exfalso
            by_cases hall : (optTruthy (qget q (("category").data))
                && optTruthy (qget q (("start").data))
                && optTruthy (qget q (("end").data))) = true
            · simp only [hall, Bool.not_true, Bool.false_eq_true, if_false] at hmem
              simp at hmem
            · simp only [Bool.not_eq_true] at hall
              simp only [hall, Bool.not_false, if_true] at hmem
              exact absurd hmem (List.not_mem_nil _)
          · rw [if_neg h5] at hmem
            by_cases h6 : (startsWith (("/papers/").data) path && decide (path.count '/' = 2)) = true
            · rw [if_pos h6] at hmem
              rw [Bool.and_eq_true] at h6
              refine ⟨h2, h5, of_decide_eq_true h6.2⟩
            · rw [if_neg h6] at hmem
              exact absurd hmem (List.not_mem_nil _)

/-- Claim C10: the point-lookup route is matched only after the literal
routes and only for paths with exactly two slashes, so a request for a
document whose id is the literal word recent or search, or whose id
contains a slash, never reaches the point-lookup query; in particular
the recent route answers 400 when no category parameter is given. -/
theorem C10_routing (store : StoreCall → List Item) (q : List (Str × Str)) (id : Str)
    (h : id = ("recent").data ∨ id = ("search").data ∨ ('/') ∈ id) :
    (∀ c ∈ (do_GET store ((("/papers/").data ++ id)) q).2, c.isPointLookup = false)
    ∧ do_GET store (("/papers/recent").data) []
        = ((400, RespBody.err (("category is required").data)), []) := by
  constructor
  · intro c hc
    cases c with
    | idQ t aid =>
        exfalso
        have hfacts := do_GET_idQ store _ q t aid hc
        rcases h with h | h | h
        · subst h
          exact hfacts.1 (by decide)
        · subst h
          exact hfacts.2.1 (by decide)
        · have hcount := hfacts.2.2
          rw [List.count_append] at hcount
          have hpos : 0 < id.count '/' := List.count_pos_iff.mpr h
          have hc8 : (("/papers/").data).count '/' = 2 := by decide
          omega
    | recentQ t c l => rfl
    | authorQ t a => rfl
    | keywordQ t k l => rfl
    | searchQ t c s e => rfl
  · rfl

theorem C10_routing_witness :
    (("recent").data = ("recent").data ∨ ("recent").data = ("search").data
      ∨ ('/') ∈ ("recent").data)
    ∧ ((∀ c ∈ (do_GET (fun _ => []) ((("/papers/").data ++ ("recent").data)) []).2,
          c.isPointLookup = false)
       ∧ do_GET (fun _ => []) (("/papers/recent").data) []
           = ((400, RespBody.err (("category is required").data)), [])) :=
  ⟨Or.inl rfl, C10_routing (fun _ => []) [] (("recent").data) (Or.inl rfl)⟩
